import Mathlib

/-
Verification development for the c2pa-walkthrough repository.

The repository source (src/main.rs) drives the c2pa SDK: it assembles a
Manifest from assertions, signs and embeds it into a media asset, performs
a sequence of edit embeddings (each linking to the previous asset version
through an Ingredient parent), and finally reads the resulting manifest
store back and inspects its validation statuses.

The SDK-side core (Manifest, ManifestStore, signing, embedding, chain
walking, validation) is not part of src/; those definitions are modelled
from the spec, as marked in their doc comments.  The functions of
src/main.rs (create_new_manifest, edit_media_with_action, read_manifest,
and the path derivation in main) are embedded directly from the source.
-/

set_option autoImplicit false
set_option maxRecDepth 16000

namespace C2PA

/-- Modelled from the spec: a schema.org person attached as the author of a
CreativeWork assertion; required fields are `name` and `identifier`. -/
structure SchemaDotOrgPerson where
  name : String
  identifier : String
deriving DecidableEq

/-- Modelled from the spec: an Action record with an open string vocabulary
for `action_type`, an ISO-8601 `when` timestamp, a software agent, an
optional source-type URI, an optional reason, and string parameters. -/
structure Action where
  action_type : String
  when : String
  software_agent : String
  source_type : Option String
  reason : Option String
  parameters : List (String × String)
deriving DecidableEq

/-- Embedded from src/main.rs: the example struct used as labeled assertion
data (fields `n`, `m`, `desc`, and a creation timestamp `ts`). -/
structure MediaData where
  n : Nat
  m : Nat
  desc : String
  ts : Nat
deriving DecidableEq

/-- Modelled from the spec: the assertion payload variants
(CreativeWork, ActionSet, embedded metadata such as Exif, and arbitrary
labeled application data). -/
inductive AssertionData where
  | creativeWork (authors : List SchemaDotOrgPerson)
  | actionSet (actions : List Action)
  | exif (json : String)
  | custom (payload : MediaData)
deriving DecidableEq

/-- Modelled from the spec: an assertion is a label together with a payload;
labels are unique within one manifest. -/
structure Assertion where
  label : String
  data : AssertionData
deriving DecidableEq

/-- Modelled from the spec: the error taxonomy of the core
(construction, signing, embedding and reading errors). -/
inductive CErr where
  | invalidAssertion (field : String)
  | duplicateLabel (label : String)
  | duplicateParent
  | immutableManifest
  | signingError (reason : String)
  | unsupportedAlgorithm
  | keyLoad
  | digestMismatch
  | ioError
  | noManifestFound
deriving DecidableEq

/-- Modelled from the spec: validation status codes form a small closed set. -/
inductive VCode where
  | okStatus
  | contentTampered
  | signatureInvalid
  | assertionMalformed (label : String)
  | cyclicChainDetected
deriving DecidableEq

/-- Modelled from the spec: a detached signature binds both the manifest
serialized content (here: its assertion sequence) and the digest of the
asset content it is embedded into, under a signing key. -/
structure Sig where
  signedAssertions : List Assertion
  signedDigest : Nat
  signerKey : Nat
deriving DecidableEq

mutual
/-- Modelled from the spec: the Manifest record: claim generator, optional
title, optional format, ordered assertion sequence, optional parent
ingredient, optional detached signature, optional content digest. -/
inductive Manifest where
  | mk (claim_generator : String) (title : Option String) (format : Option String)
       (assertions : List Assertion) (parent : Parent)
       (signature : Option Sig) (content_digest : Option Nat)

/-- Modelled from the spec: the optional parent IngredientReference of a
manifest: an opaque instance_id naming a specific asset version, plus an
owned snapshot of the referenced manifest. -/
inductive Parent where
  | root
  | ingredient (instance_id : String) (snapshot : Snapshot)

/-- Modelled from the spec: the owned (deep-copied) snapshot of the parent
manifest inside an IngredientReference; it may be absent. -/
inductive Snapshot where
  | missing
  | snap (m : Manifest)
end

def Manifest.claim_generator : Manifest → String
  | .mk cg _ _ _ _ _ _ => cg

def Manifest.title : Manifest → Option String
  | .mk _ t _ _ _ _ _ => t

def Manifest.format : Manifest → Option String
  | .mk _ _ f _ _ _ _ => f

def Manifest.assertions : Manifest → List Assertion
  | .mk _ _ _ as _ _ _ => as

def Manifest.parent : Manifest → Parent
  | .mk _ _ _ _ p _ _ => p

def Manifest.signature : Manifest → Option Sig
  | .mk _ _ _ _ _ sg _ => sg

def Manifest.content_digest : Manifest → Option Nat
  | .mk _ _ _ _ _ _ d => d

/-- Modelled from the spec: `new(claim_generator)` creates an empty,
unsigned, unembedded manifest. -/
def Manifest.new (cg : String) : Manifest :=
  .mk cg none none [] .root none none

def Manifest.set_title : Manifest → String → Manifest
  | .mk cg _ f as p sg d, t => .mk cg (some t) f as p sg d

def Manifest.set_format : Manifest → String → Manifest
  | .mk cg t _ as p sg d, f => .mk cg t (some f) as p sg d

/-- Whether an assertion with the given label is already present. -/
def Manifest.hasLabel (m : Manifest) (l : String) : Bool :=
  m.assertions.any (fun a => a.label = l)

/-- Modelled from the spec: `add_assertion` fails with ImmutableManifestError
if the manifest is already signed, with DuplicateLabelError if the label
already exists, and otherwise appends to the ordered assertion sequence. -/
def Manifest.add_assertion : Manifest → Assertion → Except CErr Manifest
  | .mk cg t f as p sg d, a =>
    if sg.isSome then .error .immutableManifest
    else if (Manifest.mk cg t f as p sg d).hasLabel a.label then
      .error (.duplicateLabel a.label)
    else .ok (.mk cg t f (as ++ [a]) p sg d)

/-- Modelled from the spec: `add_labeled_assertion` attaches arbitrary
serializable application data under a caller-chosen label, with the same
uniqueness and immutability rules as `add_assertion`. -/
def Manifest.add_labeled_assertion (m : Manifest) (l : String) (payload : MediaData) :
    Except CErr Manifest :=
  m.add_assertion ⟨l, .custom payload⟩

/-- Modelled from the spec: `set_parent` fails with DuplicateParentError if a
parent is already set, otherwise stores the ingredient snapshot. -/
def Manifest.set_parent : Manifest → String → Snapshot → Except CErr Manifest
  | .mk cg t f as p sg d, iid, s =>
    match p with
    | .root => .ok (.mk cg t f as (.ingredient iid s) sg d)
    | .ingredient _ _ => .error .duplicateParent

/-- A caller that retries after a failed `add_assertion` keeps the original
manifest; this captures that a failed addition leaves the manifest
unchanged. -/
def Manifest.add_assertion_attempt (m : Manifest) (a : Assertion) : Manifest :=
  match m.add_assertion a with
  | .ok m2 => m2
  | .error _ => m

/-- Modelled from the spec: an abstract content digest over asset bytes
(a 64-bit rolling hash; the concrete hash is an external collaborator
concern, only digest equality is used by the core). -/
def digestOf (content : List Nat) : Nat :=
  content.foldl (fun h b => (h * 131 + b) % (2 ^ 64)) 7

/-- Modelled from the spec: key material obtained from the external key
provider (create_signer succeeds only when the key files load). -/
structure KeyMaterial where
  key : Nat
deriving DecidableEq

/-- Modelled from the spec: signing sets the detached signature, binding the
manifest assertion sequence and the digest of the bound asset content,
and stores that digest on the manifest. -/
def signManifest : Manifest → Nat → KeyMaterial → Manifest
  | .mk cg t f as p _ _, d, km =>
    .mk cg t f as p (some ⟨as, d, km.key⟩) (some d)

/-- Modelled from the spec: an asset is its media content bytes together
with the ordered list of manifests embedded into it so far. -/
structure Asset where
  content : List Nat
  manifests : List Manifest

/-- Modelled from the spec: `embed` computes (or reuses) the content digest,
fails with DigestMismatchError if a stored digest disagrees with the
actual source bytes, and otherwise signs the manifest and appends it to
the asset container; embedding is reversible (the parse below recovers
the manifest unchanged). -/
def embed (m : Manifest) (src : Asset) (km : KeyMaterial) : Except CErr Asset :=
  match m.content_digest with
  | some d0 =>
    if d0 = digestOf src.content then
      .ok ⟨src.content, src.manifests ++ [signManifest m (digestOf src.content) km]⟩
    else .error .digestMismatch
  | none => .ok ⟨src.content, src.manifests ++ [signManifest m (digestOf src.content) km]⟩

/-- Modelled from the spec: the ManifestStore produced by parsing an asset:
all parsed manifests in embedding order, the active (most recently
embedded) manifest, and the accumulated validation statuses. -/
structure ManifestStore where
  manifests : List Manifest
  active : Manifest
  validation_statuses : List VCode

/-- Modelled from the spec: re-validation of the required-field rules of one
assertion; a CreativeWork author must have non-empty name and identifier. -/
def validateAssertion (a : Assertion) : List VCode :=
  match a.data with
  | .creativeWork authors =>
    if authors.all (fun p => p.name ≠ "" && p.identifier ≠ "") then []
    else [.assertionMalformed a.label]
  | _ => []

/-- Modelled from the spec: the per-manifest verification step: (a) compare
the stored content digest against the recomputed digest of the asset
bytes (ContentTampered on mismatch), (b) verify the signature binds the
manifest assertion sequence and its stored digest (SignatureInvalid
otherwise), (c) re-validate every assertion.  Statuses are accumulated,
never short-circuited. -/
def checkManifest (d : Nat) (m : Manifest) : List VCode :=
  (if m.content_digest = some d then [] else [.contentTampered]) ++
  (match m.signature with
   | none => [.signatureInvalid]
   | some sg =>
     if sg.signedAssertions = m.assertions ∧ m.content_digest = some sg.signedDigest
     then [] else [.signatureInvalid]) ++
  m.assertions.flatMap validateAssertion

/-- Modelled from the spec: verification walks the active manifest and,
transitively, every ancestor reachable through parent links, accumulating
statuses; a link revisiting an already-visited instance_id contributes
CyclicChainDetected and stops the walk. -/
def validateChain : Manifest → Nat → List String → List VCode
  | .mk cg t f as .root sg d, dig, _ =>
    checkManifest dig (.mk cg t f as .root sg d)
  | .mk cg t f as (.ingredient iid .missing) sg d, dig, visited =>
    checkManifest dig (.mk cg t f as (.ingredient iid .missing) sg d) ++
    (if iid ∈ visited then [.cyclicChainDetected] else [])
  | .mk cg t f as (.ingredient iid (.snap q)) sg d, dig, visited =>
    checkManifest dig (.mk cg t f as (.ingredient iid (.snap q)) sg d) ++
    (if iid ∈ visited then [.cyclicChainDetected]
     else validateChain q dig (iid :: visited))

/-- Modelled from the spec: `from_asset` / `open_and_verify` extracts the
embedded manifests, fails with NoManifestFoundError if none are present,
determines the active manifest (most recently embedded) and runs the
verification walk. -/
def fromAsset (a : Asset) : Except CErr ManifestStore :=
  match a.manifests.getLast? with
  | none => .error .noManifestFound
  | some act =>
    .ok ⟨a.manifests, act, validateChain act (digestOf a.content) []⟩

/-- Modelled from the spec: the chain walk underlying `chain_of`: starting
from a manifest it follows parent snapshot links, tracking visited
instance_ids, and fails with CyclicChainDetected when a link would
revisit one. -/
def chainWalk : Manifest → List String → Except VCode (List Manifest)
  | .mk cg t f as .root sg d, _ =>
    .ok [.mk cg t f as .root sg d]
  | .mk cg t f as (.ingredient iid .missing) sg d, visited =>
    if iid ∈ visited then .error .cyclicChainDetected
    else .ok [.mk cg t f as (.ingredient iid .missing) sg d]
  | .mk cg t f as (.ingredient iid (.snap q)) sg d, visited =>
    if iid ∈ visited then .error .cyclicChainDetected
    else
      match chainWalk q (iid :: visited) with
      | .ok l => .ok (Manifest.mk cg t f as (.ingredient iid (.snap q)) sg d :: l)
      | .error e => .error e

/-- Modelled from the spec: `chain_of` walks the store from its active
manifest, active first, oldest last. -/
def chain_of (s : ManifestStore) : Except VCode (List Manifest) :=
  chainWalk s.active []

/-- Outcome of running one of the repository functions: a returned value,
a propagated error Result, or a process abort (Rust panic / unwrap). -/
inductive POutcome (α : Type) where
  | ok (a : α)
  | err (e : CErr)
  | panicked (msg : String)
deriving DecidableEq

/-- Embedded from src/main.rs: the claim generator user agent string used by
both create_new_manifest and edit_media_with_action. -/
def claimGeneratorString : String := "mikes-c2pa-test-code/0.1"

/-- Embedded from src/main.rs: the single created action recorded by
create_new_manifest, stamped with the current time `now`. -/
def createActions (now : String) : List Action :=
  [⟨"c2pa.created", now, claimGeneratorString,
    some "https://cv.iptc.org/newscodes/digitalsourcetype/digitalCapture",
    none, []⟩]

/-- Embedded from src/main.rs: the Exif JSON literal added as an assertion
by create_new_manifest. -/
def exifJson : String :=
  "\x7b \"@context\" : \x7b \"exif\": \"http://ns.adobe.com/exif/1.0/\" \x7d, \"exif:GPSLatitude\": \"48,15.7068N\", \"exif:GPSLongitude\": \"16,15.9996W\", \"exif:GPSTimeStamp\": \"2023-08-23T19:12:45Z\" \x7d"

/-- Embedded from src/main.rs lines 36-119: the unsigned manifest assembled
by create_new_manifest before signing and embedding: claim generator
"mikes-c2pa-test-code/0.1", title "title", format "image/jpeg", then the
CreativeWork (author Mike Cvet / mikecvet), the created action, the Exif
assertion and the labeled org.contentauth.test MediaData in that order.
`now` is the RFC 3339 time string and `ts` the MediaData timestamp. -/
def createManifestUnsigned (now : String) (ts : Nat) : Except CErr Manifest := do
  let cw_authors : List SchemaDotOrgPerson := [⟨"Mike Cvet", "mikecvet"⟩]
  let cw : Assertion ←
    if cw_authors.all (fun p => p.name ≠ "" && p.identifier ≠ "") then
      pure ⟨"stds.schema-org.CreativeWork", .creativeWork cw_authors⟩
    else .error (.invalidAssertion "author")
  let acts : Assertion := ⟨"c2pa.actions", .actionSet (createActions now)⟩
  let ex : Assertion := ⟨"stds.exif", .exif exifJson⟩
  let m0 := Manifest.new claimGeneratorString
  let m1 := m0.set_title "title"
  let m2 := m1.set_format "image/jpeg"
  let m3 ← m2.add_assertion cw
  let m4 ← m3.add_assertion acts
  let m5 ← m4.add_assertion ex
  m5.add_labeled_assertion "org.contentauth.test" ⟨128, 256, "descriptive string", ts⟩

/-- Embedded from src/main.rs lines 36-133: create_new_manifest assembles
the manifest, loads the ps256 signer from the key files and calls
`signer.unwrap()` — a key-load failure therefore aborts the process
rather than returning an error — then signs and embeds into the
destination asset. -/
def create_new_manifest (now : String) (ts : Nat)
    (key : Except CErr KeyMaterial) (src : Asset) : POutcome Asset :=
  match createManifestUnsigned now ts with
  | .error e => .err e
  | .ok m =>
    match key with
    | .error _ => .panicked "called unwrap on an Err value"
    | .ok km =>
      match embed m src km with
      | .error e => .err e
      | .ok out => .ok out

/-- Instance identifier of a specific asset version, as surfaced by
Ingredient::from_file.  Modelled from the spec (an opaque string naming
the asset version); each embedding produces a new version, so the id is
derived from the number of manifests embedded so far. -/
def idOf (n : Nat) : String :=
  ⟨List.replicate n 'v'⟩

/-- The instance id Ingredient::from_file reports for an asset. -/
def instanceIdOf (a : Asset) : String :=
  idOf a.manifests.length

/-- The parent manifest snapshot Ingredient::from_file captures for an
asset: an owned deep copy of its active manifest, if any. -/
def snapshotOf (a : Asset) : Snapshot :=
  match a.manifests.getLast? with
  | none => .missing
  | some m => .snap m

/-- Embedded from src/main.rs lines 146-164: the two actions recorded by
edit_media_with_action — a c2pa.opened action and the caller-chosen
action — both stamped with the same `now` string and carrying the parent
instance id as the "identifier" parameter. -/
def editActionsList (now iid act : String) : List Action :=
  [⟨"c2pa.opened", now, claimGeneratorString, none, some "editing",
    [("identifier", iid)]⟩,
   ⟨act, now, claimGeneratorString,
    some "https://cv.iptc.org/newscodes/digitalsourcetype/minorHumanEdits",
    some "editing", [("identifier", iid)]⟩]

/-- Embedded from src/main.rs lines 141-167: the unsigned edit manifest:
a fresh manifest whose parent is the ingredient snapshot of the source
asset and whose single assertion is the two-action set above. -/
def editManifestUnsigned (now iid act : String) (s : Snapshot) :
    Except CErr Manifest := do
  let m0 := Manifest.new claimGeneratorString
  let m1 ← m0.set_parent iid s
  m1.add_assertion ⟨"c2pa.actions", .actionSet (editActionsList now iid act)⟩

/-- Embedded from src/main.rs lines 135-177: edit_media_with_action pulls
the source asset in as the parent ingredient, builds the edit manifest,
loads the ps256 signer (again aborting on key-load failure via unwrap)
and signs and embeds into the destination. -/
def edit_media_with_action (now act : String)
    (key : Except CErr KeyMaterial) (src : Asset) : POutcome Asset :=
  match editManifestUnsigned now (instanceIdOf src) act (snapshotOf src) with
  | .error e => .err e
  | .ok m =>
    match key with
    | .error _ => .panicked "called unwrap on an Err value"
    | .ok km =>
      match embed m src km with
      | .error e => .err e
      | .ok out => .ok out

/-- Embedded from src/main.rs lines 179-208: read_manifest parses the
manifest store from the asset (propagating parse errors), then matches on
the validation status list and calls `panic!("data validation errors")`
whenever that list is non-empty; otherwise it prints the store, its
active manifest and all manifests, and returns Ok. -/
def read_manifest (a : Asset) : POutcome ManifestStore :=
  match fromAsset a with
  | .error e => .err e
  | .ok store =>
    if store.validation_statuses.isEmpty then .ok store
    else .panicked "data validation errors"

/-- Embedded from src/main.rs lines 244-255: main runs the three edit
embeddings in order (cropped, filtered, color adjustment), panicking as
soon as one fails; each reads from and writes to the same asset. -/
def runEdits (now : String) (km : KeyMaterial) : List String → Asset → POutcome Asset
  | [], a => .ok a
  | t :: ts, a =>
    match edit_media_with_action now t (.ok km) a with
    | .ok a2 => runEdits now km ts a2
    | .err _ => .panicked "edit failed"
    | .panicked s => .panicked s

/-- Embedded from src/main.rs lines 239-255: the program pipeline after path
derivation: one creation embedding into a fresh asset (panicking on a
creation error), followed by the given sequence of edit embeddings. -/
def mainPipeline (now : String) (ts : Nat) (km : KeyMaterial)
    (edits : List String) (content : List Nat) : POutcome Asset :=
  match create_new_manifest now ts (.ok km) ⟨content, []⟩ with
  | .ok a => runEdits now km edits a
  | .err _ => .panicked "error creating manifest"
  | .panicked s => .panicked s

/-- Embedded from src/main.rs lines 244-247: the action types of the three
edit embeddings performed by main (the SDK constants c2pa_action::CROPPED,
FILTERED and COLOR_ADJUSTMENTS). -/
def mainEditActions : List String :=
  ["c2pa.cropped", "c2pa.filtered", "c2pa.color_adjustments"]

/-- Longest alphabetic prefix of a character list; models the greedy run of
the character class in the second capture group of the path regex. -/
def alphaTake : List Char → List Char
  | [] => []
  | c :: r => if c.isAlpha then c :: alphaTake r else []

/-- Embedded from src/main.rs line 225: a match of the anchored-at-current-
position part of the Rust regex "(.+)\\.([a-zA-Z]+)" with leftmost-first
(greedy, backtracking) semantics: the first capture is the longest
non-empty run of non-newline characters followed by a literal dot and at
least one ASCII letter; the second capture is the greedy letter run after
that dot.  Returns the two capture groups. -/
def greedyDot : List Char → Option (List Char × List Char)
  | [] => none
  | c :: rest =>
    if c = '\n' then none
    else
      match greedyDot rest with
      | some pe => some (c :: pe.1, pe.2)
      | none =>
        match rest with
        | d :: r =>
          if d = '.' then
            match r with
            | e :: _ => if e.isAlpha then some ([c], alphaTake r) else none
            | [] => none
          else none
        | [] => none

/-- Embedded from src/main.rs line 226: Regex::captures finds the leftmost
match of the pattern in the path, trying successive start positions. -/
def capturesPat : List Char → Option (List Char × List Char)
  | [] => none
  | c :: rest =>
    match greedyDot (c :: rest) with
    | some v => some v
    | none => capturesPat rest

/-- Embedded from src/main.rs lines 225-237: the derived output path: first
capture group, then the literal suffix "_c2pa", then a dot, then the
second capture group; `none` models the unwrap panic when the regex does
not match. -/
def deriveDest (path : String) : Option String :=
  (capturesPat path.data).map (fun pe => (⟨pe.1⟩ : String) ++ "_c2pa." ++ (⟨pe.2⟩ : String))

/-- Embedded from src/main.rs lines 239-247: the source path, destination
path and action type of each of the three edit calls main performs on the
derived path (both source and destination are the derived path). -/
def mainEditCalls (path : String) : Option (List (String × String × String)) :=
  (deriveDest path).map (fun d =>
    [(d, d, "c2pa.cropped"), (d, d, "c2pa.filtered"), (d, d, "c2pa.color_adjustments")])

/-- The concrete test scenario of the spec: claim generator "test/0.1",
title "title", format "image/jpeg", one CreativeWork assertion with
author Mike Cvet / identifier mikecvet, and one created action stamped
`now`, assembled through the manifest operations. -/
def scenarioManifest (now : String) : Except CErr Manifest := do
  let cw_authors : List SchemaDotOrgPerson := [⟨"Mike Cvet", "mikecvet"⟩]
  let cw : Assertion ←
    if cw_authors.all (fun p => p.name ≠ "" && p.identifier ≠ "") then
      pure ⟨"stds.schema-org.CreativeWork", .creativeWork cw_authors⟩
    else .error (.invalidAssertion "author")
  let m0 := ((Manifest.new "test/0.1").set_title "title").set_format "image/jpeg"
  let m1 ← m0.add_assertion cw
  m1.add_assertion
    ⟨"c2pa.actions", .actionSet [⟨"c2pa.created", now, "test/0.1", none, none, []⟩]⟩

/-- A concrete asset produced by the creation embedding of src/main.rs on a
three-byte source, with a fixed timestamp and signing key. -/
def demoAsset : Asset :=
  match create_new_manifest "2023-01-01T00:00:00Z" 0 (.ok ⟨1⟩) ⟨[1, 2, 3], []⟩ with
  | .ok a => a
  | _ => ⟨[], []⟩

/-- demoAsset with its first content byte flipped after embedding: its
stored digests no longer match the content, so validation reports
ContentTampered. -/
def tamperedAsset : Asset :=
  ⟨[9, 2, 3], demoAsset.manifests⟩

/-- A corrupted manifest whose parent ingredient names the same instance id
as the link that reaches it: the snapshot chain revisits instance id
`idOf 1`. -/
def cyclicInner : Manifest :=
  .mk "gen" none none [] (.ingredient (idOf 1) .missing) none none

/-- A manifest whose parent snapshot carries the same instance id again,
modelling a chain corrupted into a cycle. -/
def cyclicManifest : Manifest :=
  .mk "gen" none none [] (.ingredient (idOf 1) (.snap cyclicInner)) none none

/-- A manifest store holding the corrupted cyclic chain. -/
def cyclicStore : ManifestStore :=
  ⟨[cyclicManifest], cyclicManifest, [.cyclicChainDetected]⟩

/-- Witness data: a fresh manifest used to exercise the round trip. -/
def witnessManifest : Manifest := Manifest.new "witness/0.1"

/-- Witness data: a two-byte source asset with no embedded manifests. -/
def witnessSrc : Asset := ⟨[1, 2], []⟩

/-- Witness data: the asset obtained by embedding witnessManifest into
witnessSrc under key 5. -/
def witnessOut : Asset :=
  ⟨[1, 2], [signManifest witnessManifest (digestOf [1, 2]) ⟨5⟩]⟩

/-- The action types carried by an assertion, for stating vocabulary
openness. -/
def actionTypesOf (a : Assertion) : List String :=
  match a.data with
  | .actionSet l => l.map Action.action_type
  | _ => []

/-- Witness data: a signed manifest, for exercising immutability. -/
def signedWitness : Manifest := signManifest (Manifest.new "w") 3 ⟨1⟩

/-- Witness data: an assertion one might try to add after signing. -/
def witnessAssertion : Assertion := ⟨"extra", .exif "x"⟩

/-- The unsigned manifest create_new_manifest assembles, written out: title,
format and the four assertions of src/main.rs in their insertion order. -/
def createdManifestOf (now : String) (ts : Nat) : Manifest :=
  .mk claimGeneratorString (some "title") (some "image/jpeg")
    [⟨"stds.schema-org.CreativeWork", .creativeWork [⟨"Mike Cvet", "mikecvet"⟩]⟩,
     ⟨"c2pa.actions", .actionSet (createActions now)⟩,
     ⟨"stds.exif", .exif exifJson⟩,
     ⟨"org.contentauth.test", .custom ⟨128, 256, "descriptive string", ts⟩⟩]
    .root none none

/-- The signed edit manifest appended to the asset by one run of
edit_media_with_action. -/
def editSignedManifest (now iid t : String) (s : Snapshot) (d : Nat)
    (km : KeyMaterial) : Manifest :=
  .mk claimGeneratorString none none
    [⟨"c2pa.actions", .actionSet (editActionsList now iid t)⟩]
    (.ingredient iid s)
    (some ⟨[⟨"c2pa.actions", .actionSet (editActionsList now iid t)⟩], d, km.key⟩)
    (some d)

/-- The chain invariant carried along the pipeline: walking the manifest
with any visited set avoiding the instance ids of its ancestors yields a
chain of exactly n manifests. -/
def ChainOk (m : Manifest) (n : Nat) : Prop :=
  ∀ visited : List String, (∀ k, 0 < k → k < n → idOf k ∉ visited) →
    ∃ l, chainWalk m visited = Except.ok l ∧ l.length = n

theorem signManifest_assertions (m : Manifest) (d : Nat) (km : KeyMaterial) :
    (signManifest m d km).assertions = m.assertions := by
  cases m; rfl

/-- C1 evidence: on an asset whose embedded manifest fails content
validation, the store still parses and exposes all manifests with a
non-empty status list, but the read path of src/main.rs panics instead of
returning the statuses to the caller. -/
theorem read_path_panics_on_validation_errors :
    (∃ store, fromAsset tamperedAsset = Except.ok store ∧
      store.manifests = tamperedAsset.manifests ∧
      store.validation_statuses = [VCode.contentTampered]) ∧
    read_manifest tamperedAsset = POutcome.panicked "data validation errors" :=
  ⟨⟨_, rfl, rfl, rfl⟩, rfl⟩

/-- C2: signing and embedding a manifest into an asset and then parsing the
result yields a store whose active manifest carries exactly the original
assertion sequence — same labels, same order, same payloads. -/
theorem embed_parse_round_trip (m : Manifest) (src : Asset) (km : KeyMaterial)
    (out : Asset) (h : embed m src km = Except.ok out) :
    ∃ store, fromAsset out = Except.ok store ∧
      store.active.assertions = m.assertions := by
  have hout : out =
      ⟨src.content, src.manifests ++ [signManifest m (digestOf src.content) km]⟩ := by
    unfold embed at h
    split at h
    · split at h
      · exact (Except.ok.inj h).symm
      · simp at h
    · exact (Except.ok.inj h).symm
  subst hout
  refine ⟨⟨src.manifests ++ [signManifest m (digestOf src.content) km],
          signManifest m (digestOf src.content) km,
          validateChain (signManifest m (digestOf src.content) km)
            (digestOf src.content) []⟩, ?_, signManifest_assertions m _ km⟩
  simp [fromAsset, List.getLast?_concat]

/-- Witness for C2 at a concrete manifest, asset and key. -/
theorem embed_parse_round_trip_witness :
    ∃ store, fromAsset witnessOut = Except.ok store ∧
      store.active.assertions = witnessManifest.assertions :=
  embed_parse_round_trip witnessManifest witnessSrc ⟨5⟩ witnessOut rfl

/-- C5 evidence: when the signing key fails to load, both sign-and-embed
functions of src/main.rs abort (they unwrap the signer Result) instead of
returning the error, while the manifest assembled up to that point holds
no partial signature. -/
theorem sign_embed_key_error_aborts (e : CErr) (now act : String) (ts : Nat)
    (src : Asset) :
    create_new_manifest now ts (Except.error e) src =
      POutcome.panicked "called unwrap on an Err value" ∧
    edit_media_with_action now act (Except.error e) src =
      POutcome.panicked "called unwrap on an Err value" ∧
    ∃ m, createManifestUnsigned now ts = Except.ok m ∧ m.signature = none :=
  ⟨rfl, rfl, _, rfl, rfl⟩

/-- C6: adding an assertion to a signed manifest fails with
ImmutableManifestError, and the caller is left with the manifest exactly
as it was (signature, digest and assertion list unchanged). -/
theorem add_assertion_immutable_after_signing (m : Manifest) (a : Assertion)
    (h : m.signature.isSome = true) :
    m.add_assertion a = Except.error CErr.immutableManifest ∧
    m.add_assertion_attempt a = m := by
  cases m with
  | mk cg t f as p sg d =>
    cases sg with
    | none => simp [Manifest.signature] at h
    | some s => exact ⟨rfl, rfl⟩

/-- Witness for C6 at a concrete signed manifest. -/
theorem add_assertion_immutable_witness :
    signedWitness.signature.isSome = true ∧
    (signedWitness.add_assertion witnessAssertion =
        Except.error CErr.immutableManifest ∧
      signedWitness.add_assertion_attempt witnessAssertion = signedWitness) :=
  ⟨rfl, add_assertion_immutable_after_signing signedWitness witnessAssertion rfl⟩

/-- C7: the action vocabulary is open: for every action type string,
building the edit manifest of src/main.rs with that type succeeds and the
resulting manifest records the c2pa.opened action followed by an action
of exactly that type; no type string is rejected. -/
theorem action_vocabulary_open (t now iid : String) (s : Snapshot) :
    ∃ m, editManifestUnsigned now iid t s = Except.ok m ∧
      m.assertions.flatMap actionTypesOf = ["c2pa.opened", t] :=
  ⟨_, rfl, rfl⟩

/-- Helper for C8: the chain walk always produces either a finite manifest
list or the CyclicChainDetected error; no other error is possible and the
recursion is total by construction. -/
theorem chainWalk_ok_or_cyclic (m : Manifest) (visited : List String) :
    (∃ l, chainWalk m visited = Except.ok l) ∨
    chainWalk m visited = Except.error VCode.cyclicChainDetected := by
  induction m, visited using chainWalk.induct with
  | case1 cg t f as sg d visited => exact Or.inl ⟨_, rfl⟩
  | case2 cg t f as iid sg d visited hmem =>
    exact Or.inr (by simp [chainWalk, hmem])
  | case3 cg t f as iid sg d visited hmem =>
    exact Or.inl ⟨[Manifest.mk cg t f as (.ingredient iid .missing) sg d],
      by simp [chainWalk, hmem]⟩
  | case4 cg t f as iid q sg d visited hmem =>
    exact Or.inr (by simp [chainWalk, hmem])
  | case5 cg t f as iid q sg d visited hmem l hq ih =>
    exact Or.inl ⟨Manifest.mk cg t f as (.ingredient iid (.snap q)) sg d :: l,
      by simp [chainWalk, hmem, hq]⟩
  | case6 cg t f as iid q sg d visited hmem e hq ih =>
    have : e = VCode.cyclicChainDetected := by
      rcases ih with ⟨l, hl⟩ | hl
      · rw [hq] at hl; cases hl
      · rw [hq] at hl; cases hl; rfl
    subst this
    exact Or.inr (by simp [chainWalk, hmem, hq])

/-- C8: walking any manifest store with chain_of terminates with either a
finite manifest list or the CyclicChainDetected error, and on a chain
corrupted into a cycle (a parent snapshot that revisits its own instance
id) it reports CyclicChainDetected rather than looping. -/
theorem chain_of_terminates :
    (∀ s : ManifestStore, (∃ l, chain_of s = Except.ok l) ∨
      chain_of s = Except.error VCode.cyclicChainDetected) ∧
    chain_of cyclicStore = Except.error VCode.cyclicChainDetected :=
  ⟨fun s => chainWalk_ok_or_cyclic s.active [], rfl⟩

/-- C9: within action lists as built by the program — the single created
action of create_new_manifest and the opened-plus-edit pair of
edit_media_with_action, all stamped with the same clock reading — the
when timestamps are monotonically non-decreasing in list order. -/
theorem action_when_monotone (now iid t : String) :
    (createActions now).Pairwise (fun x y => x.when ≤ y.when) ∧
    (editActionsList now iid t).Pairwise (fun x y => x.when ≤ y.when) := by
  constructor
  · simp [createActions]
  · simp [editActionsList]

/-- Helper for C4: a freshly signed parent-less manifest whose assertions
pass their required-field re-validation produces no validation status. -/
theorem validateChain_fresh (cg : String) (t f : Option String)
    (as : List Assertion) (d : Nat) (km : KeyMaterial)
    (has : as.flatMap validateAssertion = []) :
    validateChain (signManifest (.mk cg t f as .root none none) d km) d [] = [] := by
  show validateChain (.mk cg t f as .root (some ⟨as, d, km.key⟩) (some d)) d [] = []
  simp [validateChain, checkManifest, Manifest.content_digest, Manifest.signature,
    Manifest.assertions, has]

/-- C4: the concrete scenario — claim generator "test/0.1", title "title",
format "image/jpeg", one CreativeWork assertion (author Mike Cvet,
identifier mikecvet) and one created action, signed and embedded into a
fresh asset — opens with an empty validation status list and an active
manifest titled "title". -/
theorem scenario_clean_validation (now : String) (content : List Nat)
    (km : KeyMaterial) :
    ∃ m out store, scenarioManifest now = Except.ok m ∧
      embed m ⟨content, []⟩ km = Except.ok out ∧
      fromAsset out = Except.ok store ∧
      store.validation_statuses = [] ∧
      store.active.title = some "title" := by
  refine ⟨_, _, _, rfl, rfl, rfl, ?_, rfl⟩
  exact validateChain_fresh "test/0.1" (some "title") (some "image/jpeg") _
    (digestOf content) km rfl

theorem alphaTake_of_all_alpha (l : List Char) (h : l.all Char.isAlpha = true) :
    alphaTake l = l := by
  induction l with
  | nil => rfl
  | cons c r ih =>
    rw [List.all_cons, Bool.and_eq_true] at h
    simp [alphaTake, h.1, ih h.2]

/-- Unfolding lemma for one step of the greedy matcher. -/
theorem greedyDot_cons (c : Char) (rest : List Char) :
    greedyDot (c :: rest) =
      if c = '\n' then none
      else
        match greedyDot rest with
        | some pe => some (c :: pe.1, pe.2)
        | none =>
          match rest with
          | d :: r =>
            if d = '.' then
              match r with
              | e :: _ => if e.isAlpha then some ([c], alphaTake r) else none
              | [] => none
            else none
          | [] => none := rfl

theorem greedyDot_of_all_alpha (l : List Char) (h : l.all Char.isAlpha = true) :
    greedyDot l = none := by
  induction l with
  | nil => rfl
  | cons c r ih =>
    rw [List.all_cons, Bool.and_eq_true] at h
    have hc : c ≠ '\n' := fun hEq => by
      rw [hEq] at h
      exact absurd h.1 (by decide)
    have hr : greedyDot r = none := ih h.2
    rw [greedyDot_cons, if_neg hc, hr]
    cases r with
    | nil => rfl
    | cons e rr =>
      have hea : e.isAlpha = true := by
        have h2 := h.2
        rw [List.all_cons, Bool.and_eq_true] at h2
        exact h2.1
      have he : e ≠ '.' := fun hEq => by
        rw [hEq] at hea
        exact absurd hea (by decide)
      simp [he]

/-- Helper for C10: on a path of the form stem.ext with a non-empty
newline-free stem and a non-empty alphabetic extension, the greedy match
captures exactly the stem and the extension. -/
theorem greedyDot_append (σ : List Char) (hσ : σ ≠ [])
    (hnl : σ.all (fun c => c ≠ '\n') = true) (ε : List Char) (hε : ε ≠ [])
    (hα : ε.all Char.isAlpha = true) :
    greedyDot (σ ++ '.' :: ε) = some (σ, ε) := by
  induction σ with
  | nil => exact absurd rfl hσ
  | cons c σ2 ih =>
    rw [List.all_cons, Bool.and_eq_true] at hnl
    have hc : c ≠ '\n' := of_decide_eq_true hnl.1
    cases σ2 with
    | nil =>
      cases ε with
      | nil => exact absurd rfl hε
      | cons e r2 =>
        have hea : e.isAlpha = true := by
          rw [List.all_cons, Bool.and_eq_true] at hα
          exact hα.1
        have he : e ≠ '.' := fun hEq => by
          rw [hEq] at hea
          exact absurd hea (by decide)
        have her : greedyDot (e :: r2) = none := greedyDot_of_all_alpha _ hα
        have hat : alphaTake (e :: r2) = e :: r2 := alphaTake_of_all_alpha _ hα
        have h0 : greedyDot ('.' :: e :: r2) = none := by
          rw [greedyDot_cons, if_neg (show ('.' : Char) ≠ '\n' from by decide), her]
          simp [he]
        simp only [List.cons_append, List.nil_append]
        rw [greedyDot_cons, if_neg hc, h0]
        simp [hea, hat]
    | cons c2 σ3 =>
      have hih := ih (List.cons_ne_nil c2 σ3) hnl.2
      simp only [List.cons_append] at hih ⊢
      rw [greedyDot_cons, if_neg hc, hih]

/-- Helper for C10: the leftmost match of the path regex on stem.ext starts
at the first character when the stem is newline-free. -/
theorem capturesPat_append (σ : List Char) (hσ : σ ≠ [])
    (hnl : σ.all (fun c => c ≠ '\n') = true) (ε : List Char) (hε : ε ≠ [])
    (hα : ε.all Char.isAlpha = true) :
    capturesPat (σ ++ '.' :: ε) = some (σ, ε) := by
  cases σ with
  | nil => exact absurd rfl hσ
  | cons c σ2 =>
    have h := greedyDot_append (c :: σ2) (List.cons_ne_nil c σ2) hnl ε hε hα
    simp only [List.cons_append] at h ⊢
    simp [capturesPat, h]

/-- C10 (amended): for a path stem.ext whose stem is non-empty and contains
no newline and whose extension is non-empty and alphabetic, the program
derives the output path stem_c2pa.ext — stem and extension preserved,
"_c2pa" inserted before the extension — and all three edit embeddings of
main read from and write to that same derived path. -/
theorem derive_path_suffix_correct (stem ext : String)
    (h1 : stem ≠ "") (h2 : stem.data.all (fun c => c ≠ '\n') = true)
    (h3 : ext ≠ "") (h4 : ext.data.all Char.isAlpha = true) :
    deriveDest (stem ++ "." ++ ext) = some (stem ++ "_c2pa." ++ ext) ∧
    mainEditCalls (stem ++ "." ++ ext) = some
      [(stem ++ "_c2pa." ++ ext, stem ++ "_c2pa." ++ ext, "c2pa.cropped"),
       (stem ++ "_c2pa." ++ ext, stem ++ "_c2pa." ++ ext, "c2pa.filtered"),
       (stem ++ "_c2pa." ++ ext, stem ++ "_c2pa." ++ ext,
        "c2pa.color_adjustments")] := by
  obtain ⟨sl⟩ := stem
  obtain ⟨el⟩ := ext
  have hsl : sl ≠ [] := fun hEq => h1 (congrArg String.mk hEq)
  have hel : el ≠ [] := fun hEq => h3 (congrArg String.mk hEq)
  have hcap : capturesPat (sl ++ '.' :: el) = some (sl, el) :=
    capturesPat_append sl hsl h2 el hel h4
  have hdata : ((⟨sl⟩ : String) ++ "." ++ (⟨el⟩ : String)).data = sl ++ '.' :: el := by
    rw [String.data_append, String.data_append]
    simp
  have hone : deriveDest ((⟨sl⟩ : String) ++ "." ++ (⟨el⟩ : String)) =
      some ((⟨sl⟩ : String) ++ "_c2pa." ++ (⟨el⟩ : String)) := by
    rw [deriveDest, hdata, hcap]
    rfl
  exact ⟨hone, by rw [mainEditCalls, hone]; rfl⟩

/-- Witness for C10 at the concrete path photo.jpg. -/
theorem derive_path_suffix_correct_witness :
    (("photo" : String) ≠ "" ∧ "photo".data.all (fun c => c ≠ '\n') = true ∧
     ("jpg" : String) ≠ "" ∧ "jpg".data.all Char.isAlpha = true) ∧
    (deriveDest ("photo" ++ "." ++ "jpg") = some ("photo" ++ "_c2pa." ++ "jpg") ∧
     mainEditCalls ("photo" ++ "." ++ "jpg") = some
       [("photo" ++ "_c2pa." ++ "jpg", "photo" ++ "_c2pa." ++ "jpg", "c2pa.cropped"),
        ("photo" ++ "_c2pa." ++ "jpg", "photo" ++ "_c2pa." ++ "jpg", "c2pa.filtered"),
        ("photo" ++ "_c2pa." ++ "jpg", "photo" ++ "_c2pa." ++ "jpg",
         "c2pa.color_adjustments")]) :=
  ⟨⟨by decide, by decide, by decide, by decide⟩,
   derive_path_suffix_correct "photo" "jpg" (by decide) (by decide) (by decide)
     (by decide)⟩

/-- C10 counterexample: the path (a newline b).jpg is of the form stem.ext
with a non-empty alphabetic extension and matches the regex, yet the
derived path is b_c2pa.jpg, not stem_c2pa.ext: the dot of the regex does
not match a newline, so the leftmost match starts after the newline and
the stem is not preserved. -/
theorem derive_path_newline_counterexample :
    ("a\nb" : String) ≠ "" ∧ ("jpg" : String) ≠ "" ∧
    "jpg".data.all Char.isAlpha = true ∧
    deriveDest ("a\nb" ++ "." ++ "jpg") = some "b_c2pa.jpg" ∧
    ¬ deriveDest ("a\nb" ++ "." ++ "jpg") =
        some ("a\nb" ++ "_c2pa." ++ "jpg") := by
  refine ⟨by decide, by decide, by decide, by decide, by decide⟩

theorem idOf_inj {a b : Nat} (h : idOf a = idOf b) : a = b := by
  have h2 := congrArg (fun s : String => s.data.length) h
  simpa [idOf] using h2

theorem chainOk_root (cg : String) (t f : Option String) (as : List Assertion)
    (sg : Option Sig) (d : Option Nat) :
    ChainOk (.mk cg t f as .root sg d) 1 :=
  fun _ _ => ⟨_, rfl, rfl⟩

theorem chainOk_step (act : Manifest) (n : Nat) (hpos : 0 < n) (hn : ChainOk act n)
    (cg : String) (t f : Option String) (as : List Assertion) (sg : Option Sig)
    (d : Option Nat) :
    ChainOk (.mk cg t f as (.ingredient (idOf n) (.snap act)) sg d) (n + 1) := by
  intro visited hv
  have hnot : idOf n ∉ visited := hv n hpos (Nat.lt_succ_self n)
  have hrec : ∀ k, 0 < k → k < n → idOf k ∉ idOf n :: visited := by
    intro k hk0 hkn hmem
    rcases List.mem_cons.mp hmem with hEq | hmem2
    · exact absurd (idOf_inj hEq) (Nat.ne_of_lt hkn)
    · exact hv k hk0 (Nat.lt_trans hkn (Nat.lt_succ_self n)) hmem2
  obtain ⟨l, hl, hlen⟩ := hn (idOf n :: visited) hrec
  refine ⟨Manifest.mk cg t f as (.ingredient (idOf n) (.snap act)) sg d :: l,
    ?_, by simp [hlen]⟩
  simp [chainWalk, hnot, hl]

/-- Evaluation of one edit embedding: given the instance id and snapshot the
ingredient reports for the source asset, the edit succeeds and appends
exactly the signed edit manifest. -/
theorem edit_media_eval (now t iid : String) (s : Snapshot) (km : KeyMaterial)
    (a : Asset) (hi : instanceIdOf a = iid) (hs : snapshotOf a = s) :
    edit_media_with_action now t (.ok km) a =
      .ok ⟨a.content, a.manifests ++
        [editSignedManifest now iid t s (digestOf a.content) km]⟩ := by
  subst hi
  subst hs
  rfl

/-- Invariant propagation along the edit sequence run by main. -/
theorem runEdits_chain (now : String) (km : KeyMaterial) (edits : List String) :
    ∀ (a : Asset) (ms : List Manifest) (act : Manifest),
      a.manifests = ms ++ [act] → ChainOk act (ms.length + 1) →
      ∃ (a2 : Asset) (ms2 : List Manifest) (act2 : Manifest),
        runEdits now km edits a = .ok a2 ∧
        a2.manifests = ms2 ++ [act2] ∧
        ms2.length = ms.length + edits.length ∧
        ChainOk act2 (ms2.length + 1) := by
  induction edits with
  | nil =>
    intro a ms act h hc
    exact ⟨a, ms, act, rfl, h, by simp, hc⟩
  | cons t ts ih =>
    intro a ms act h hc
    have hiid : instanceIdOf a = idOf (ms.length + 1) := by
      simp [instanceIdOf, h]
    have hsnap : snapshotOf a = .snap act := by
      simp [snapshotOf, h, List.getLast?_concat]
    have hmain := edit_media_eval now t (idOf (ms.length + 1)) (.snap act) km a
      hiid hsnap
    have hc2 : ChainOk (editSignedManifest now (idOf (ms.length + 1)) t
        (.snap act) (digestOf a.content) km) (ms.length + 1 + 1) :=
      chainOk_step act (ms.length + 1) (Nat.succ_pos _) hc claimGeneratorString
        none none _ _ _
    have h2 : (⟨a.content, a.manifests ++
        [editSignedManifest now (idOf (ms.length + 1)) t (.snap act)
          (digestOf a.content) km]⟩ : Asset).manifests =
        (ms ++ [act]) ++ [editSignedManifest now (idOf (ms.length + 1)) t
          (.snap act) (digestOf a.content) km] := by
      simp [h]
    have hlen : (ms ++ [act]).length = ms.length + 1 := by simp
    obtain ⟨a2, ms2, act2, hrun, hm2, hlen2, hc3⟩ :=
      ih _ (ms ++ [act]) _ h2 (by rw [hlen]; exact hc2)
    refine ⟨a2, ms2, act2, ?_, hm2, ?_, hc3⟩
    · simp [runEdits, hmain, hrun]
    · rw [hlen2, hlen]
      simp [Nat.add_assoc, Nat.add_comm 1 ts.length]

/-- C3: one creation embedding followed by any number of sequential edit
embeddings (each edit manifest parented on the previous asset version)
yields, after parsing, a store whose chain_of walk succeeds with exactly
one more manifest than there were edits; in particular the program run —
one creation plus the three edits of main — yields a chain of exactly
four manifests. -/
theorem chain_length_after_edits :
    (∀ (edits : List String) (content : List Nat) (now : String) (ts : Nat)
        (km : KeyMaterial),
      ∃ (a : Asset) (store : ManifestStore) (l : List Manifest),
        mainPipeline now ts km edits content = .ok a ∧
        fromAsset a = .ok store ∧
        store.manifests.length = edits.length + 1 ∧
        chain_of store = .ok l ∧
        l.length = edits.length + 1) ∧
    (∀ (content : List Nat) (now : String) (ts : Nat) (km : KeyMaterial),
      ∃ (a : Asset) (store : ManifestStore) (l : List Manifest),
        mainPipeline now ts km mainEditActions content = .ok a ∧
        fromAsset a = .ok store ∧
        store.manifests.length = 4 ∧
        chain_of store = .ok l ∧
        l.length = 4) := by
  have main : ∀ (edits : List String) (content : List Nat) (now : String)
      (ts : Nat) (km : KeyMaterial),
      ∃ (a : Asset) (store : ManifestStore) (l : List Manifest),
        mainPipeline now ts km edits content = .ok a ∧
        fromAsset a = .ok store ∧
        store.manifests.length = edits.length + 1 ∧
        chain_of store = .ok l ∧
        l.length = edits.length + 1 := by
    intro edits content now ts km
    obtain ⟨a2, ms2, act2, hrun, hm2, hlen2, hc2⟩ :=
      runEdits_chain now km edits
        ⟨content, [signManifest (createdManifestOf now ts) (digestOf content) km]⟩
        [] (signManifest (createdManifestOf now ts) (digestOf content) km)
        rfl (by exact chainOk_root _ _ _ _ _ _)
    refine ⟨a2, ⟨a2.manifests, act2, validateChain act2 (digestOf a2.content) []⟩,
      ?_⟩
    obtain ⟨l, hwalk, hlen⟩ := hc2 [] (by intro k _ _ hmem; cases hmem)
    refine ⟨l, ?_, ?_, ?_, ?_, ?_⟩
    · show mainPipeline now ts km edits content = .ok a2
      unfold mainPipeline
      rw [show create_new_manifest now ts (.ok km) ⟨content, []⟩ =
        .ok ⟨content, [signManifest (createdManifestOf now ts)
          (digestOf content) km]⟩ from rfl]
      exact hrun
    · show fromAsset a2 = _
      unfold fromAsset
      rw [hm2, List.getLast?_concat]
    · show a2.manifests.length = edits.length + 1
      rw [hm2]
      simp [hlen2]
    · show chain_of _ = _
      unfold chain_of
      exact hwalk
    · rw [hlen, hlen2]
      simp
  exact ⟨main, fun content now ts km => main mainEditActions content now ts km⟩

end C2PA
